import Mathlib

set_option maxRecDepth 100000

/-!
Shallow embedding of the EcoIuris AI CLI chat front-end (src/App.tsx and the
chat-session factory in src/services/geminiService.tsx).

The transcript/send state machine of the App component is translated into pure
Lean functions.  External collaborators (the generative-AI SDK, the browser
FileReader and DOM text extraction) are modelled through their public
contracts: their outcomes are supplied as explicit parameters (a SendEnv with
the result of each external call, and a strip function for DOM text
extraction), and the requests the code issues to them are logged as ApiAction
values so that theorems can speak about what was transmitted.
-/

namespace EcoIuris

/-- Role of a transcript entry: the Message interface in App.tsx. -/
inductive Role
  | user
  | model
deriving DecidableEq

/-- A grounding citation as stored on a model entry: uri and title. -/
structure Citation where
  uri : String
  title : String
deriving DecidableEq

/-- A transcript entry (interface Message in App.tsx).  The optional citations
field is present only on deep-search model entries. -/
structure Message where
  role : Role
  text : String
  citations : Option (List Citation) := none
deriving DecidableEq

/-- The welcome banner, copied verbatim from fullWelcomeMessageText in
App.tsx (a template literal: leading and trailing newline included). -/
def fullWelcomeMessageText : String :=
  "\n<pre class=\"text-xs sm:text-sm\" style=\"font-family: \x27Source Code Pro\x27, monospace; color: #87CEEB; line-height: 1;\">\n███████╗ ██████╗  ██████╗ ██╗ ██╗   ██╗ ██╗ ██████╗ ███████╗      █████╗ ██╗\n██╔════╝██╔═══██╗██╔═══██╗██║ ██║   ██║ ██║██╔════╝ ██╔════╝     ██╔══██╗██║\n█████╗  ██║   ██║██║   ██║██║ ██║   ██║ ██║██║  ███╗███████╗     ███████║██║\n██╔══╝  ██║   ██║██║   ██║██║ ╚██╗ ██╔╝ ██║██║   ██║╚════██║     ██╔══██║╚═╝\n███████╗╚██████╔╝╚██████╔╝██║  ╚████╔╝  ██║╚██████╔╝███████║     ██║  ██║██╗\n╚══════╝ ╚═════╝  ╚═════╝ ╚═╝   ╚═══╝   ╚═╝ ╚═════╝ ╚══════╝     ╚═╝  ╚═╝╚═╝\n</pre>\nWelcome to the EcoIuris AI CLI. How can I help you today?\n"

/-- The banner as a character list; the animation indexes the banner
character by character (all banner characters are BMP code points, so
JavaScript UTF-16 indexing agrees with code-point indexing). -/
def bannerChars : List Char := fullWelcomeMessageText.data

/-- The keys of the AI_MODELS record in App.tsx. -/
inductive PersonaKey
  | ecoiuris
  | legal_pro
  | juscrawler
  | processual
deriving DecidableEq

/-- One entry of the AI_MODELS record: display name and system instruction. -/
structure PersonaInfo where
  name : String
  instruction : String
deriving DecidableEq

/-- The AI_MODELS record of App.tsx, instructions copied verbatim. -/
def AI_MODELS : PersonaKey → PersonaInfo
  | .ecoiuris =>
    ⟨"EcoIuris AI",
     "You are an AI assistant from EcoIuris AI. Your mission is to listen, translate, protect, and transform realities. Your motto is: \"The right to exist. The power to evolve.\" You should provide helpful, ethical, and insightful responses to assist users."⟩
  | .legal_pro =>
    ⟨"Gemini Legal Pro",
     "You are a specialized legal AI assistant. Provide detailed and accurate information on legal matters, citing relevant laws and precedents. Always include a disclaimer that you are not a substitute for a human lawyer."⟩
  | .juscrawler =>
    ⟨"JusCrawler",
     "You are JusCrawler, an AI expert in legal data extraction and analysis. Scan and summarize legal documents, identify key entities, and provide concise reports based on the provided text."⟩
  | .processual =>
    ⟨"Assistente Processual",
     "You are a procedural assistant AI. Guide users through legal processes step-by-step. Your tone is helpful, clear, and focused on procedural accuracy."⟩

/-- A message part as sent to the SDK: plain text or inline file data
(fileToGenerativePart produces the inlineData form). -/
inductive Part
  | text (s : String)
  | inlineData (data : String) (mimeType : String)
deriving DecidableEq

/-- One turn recorded in the SDK chat session context: the parts sent and the
full response text.  Models the conversational context an ai.chats.create
session keeps internally (external collaborator, public contract). -/
structure HistoryItem where
  parts : List Part
  response : String
deriving DecidableEq

/-- The SDK Chat session handle: bound to a model id and a system
instruction, carrying the conversational context (external collaborator,
public contract of ai.chats.create). -/
structure ChatSession where
  model : String
  systemInstruction : String
  history : List HistoryItem
deriving DecidableEq

/-- startChat from src/services/geminiService.tsx: creates a fresh session
for model gemini-2.5-flash with the given system instruction. -/
def startChat (systemInstruction : String) : ChatSession :=
  ⟨"gemini-2.5-flash", systemInstruction, []⟩

/-- A pending attachment (the File held in the attachedFile state). -/
structure AttachedFile where
  name : String
  mimeType : String
deriving DecidableEq

/-- The component-local state of the App component that the send cycle
reads and writes (the useState variables of App.tsx). -/
structure AppState where
  chat : Option ChatSession
  messages : List Message
  input : String
  isLoading : Bool
  error : Option String
  isDeepSearch : Bool
  attachedFile : Option AttachedFile
deriving DecidableEq

/-- A grounding web payload: uri and title may each be absent. -/
structure WebInfo where
  uri : Option String
  title : Option String
deriving DecidableEq

/-- A grounding chunk from groundingMetadata: the web field may be absent. -/
structure GroundingChunk where
  web : Option WebInfo
deriving DecidableEq

/-- The terminal result of the grounded generateContent call: response text
and the optional grounding chunk list. -/
structure GroundedResponse where
  text : String
  groundingChunks : Option (List GroundingChunk)
deriving DecidableEq

/-- Outcome of iterating the standard-chat response stream: the chunk texts
yielded in arrival order, and, when streamThrow is some, an error thrown by
the iteration after those chunks were yielded. -/
structure StreamResult where
  chunks : List String
  streamThrow : Option String
deriving DecidableEq

/-- Outcomes of the three external calls a send can make, supplied by the
environment: the FileReader conversion, the sendMessageStream call (an error
here models the awaited call itself rejecting, before any chunk arrives),
and the grounded generateContent call. -/
structure SendEnv where
  convertResult : Except String Part
  streamResult : Except String StreamResult
  groundedResult : Except String GroundedResponse

/-- Log of requests the send issues to external collaborators, so theorems
can state what was (and was not) transmitted. -/
inductive ApiAction
  | convertAttachment (name : String)
  | sendMessageStream (parts : List Part)
  | generateContent (model : String) (contents : String)
      (useGoogleSearch : Bool) (systemInstruction : Option String)
deriving DecidableEq

/-- JavaScript truthiness of an optional string field (undefined is falsy,
the empty string is falsy): the test !!web?.uri in handleDeepSearch. -/
def truthyStr : Option String → Bool
  | none => false
  | some s => s ≠ ""

/-- Citation extraction from handleDeepSearch:
chunks?.map(c => c.web).filter(web => !!web?.uri && !!web?.title) ?? []. -/
def extractCitations (chunks : Option (List GroundingChunk)) : List Citation :=
  match chunks with
  | none => []
  | some cs =>
    (cs.map (·.web)).filterMap fun ow =>
      match ow with
      | some w =>
        if truthyStr w.uri && truthyStr w.title then
          some ⟨w.uri.getD "", w.title.getD ""⟩
        else none
      | none => none

/-- The functional update newMessages[newMessages.length - 1] = m used by
both response paths: replace the last entry (a write at index -1 on an empty
array stores no element, so the empty list is returned unchanged). -/
def setLast (ms : List Message) (m : Message) : List Message :=
  match ms with
  | [] => []
  | _ :: _ => ms.dropLast ++ [m]

/-- The chunk loop of handleStandardChat: modelResponse += chunk.text, then
replace the last transcript entry with the accumulated buffer.  Returns the
final buffer and the transcript after the last update. -/
def chunkFold (buffer : String) (ms : List Message) :
    List String → String × List Message
  | [] => (buffer, ms)
  | c :: cs =>
    chunkFold (buffer ++ c) (setLast ms ⟨.model, buffer ++ c, none⟩) cs

/-- The transcript after the first k chunk updates of a standard-chat stream
that starts from transcript ms (used to state the arrival-order property). -/
def chunkStates (ms : List Message) (chunks : List String) (k : Nat) :
    List Message :=
  (chunkFold "" ms (chunks.take k)).2

/-- handleStandardChat after the message parts are known: await
chat.sendMessageStream, append the provisional model entry, then run the
chunk loop.  Returns the outcome (an error models a throw propagating to the
caller), the transcript, the session (its context grows by the exchanged
turn when the stream was obtained), and the logged requests. -/
def standardAfterConvert (env : SendEnv) (chat : ChatSession)
    (parts : List Part) (acts : List ApiAction) (ms : List Message) :
    Except String Unit × List Message × ChatSession × List ApiAction :=
  match env.streamResult with
  | .error e => (.error e, ms, chat, acts ++ [.sendMessageStream parts])
  | .ok sr =>
    let ms1 := ms ++ [⟨.model, "...", none⟩]
    let r := chunkFold "" ms1 sr.chunks
    let chat1 : ChatSession :=
      { chat with history := chat.history ++ [⟨parts, r.1⟩] }
    match sr.streamThrow with
    | some e => (.error e, r.2, chat1, acts ++ [.sendMessageStream parts])
    | none => (.ok (), r.2, chat1, acts ++ [.sendMessageStream parts])

/-- handleStandardChat from App.tsx: build the message parts (converting the
attachment first when one is pending, the file part placed before the text),
then stream the reply into the transcript. -/
def handleStandardChat (env : SendEnv) (chat : ChatSession)
    (attachedFile : Option AttachedFile) (currentInput : String)
    (ms : List Message) :
    Except String Unit × List Message × ChatSession × List ApiAction :=
  match attachedFile with
  | some f =>
    match env.convertResult with
    | .error e => (.error e, ms, chat, [.convertAttachment f.name])
    | .ok filePart =>
      standardAfterConvert env chat [filePart, .text currentInput]
        [.convertAttachment f.name] ms
  | none => standardAfterConvert env chat [.text currentInput] [] ms

/-- handleDeepSearch from App.tsx: append the status placeholder, issue one
grounded generateContent request on gemini-2.5-flash carrying only the input
text (tools: googleSearch, and no system instruction), then settle the last
entry with the response text and the filtered citations. -/
def handleDeepSearch (env : SendEnv) (currentInput : String)
    (ms : List Message) :
    Except String Unit × List Message × List ApiAction :=
  let ms1 := ms ++ [⟨.model, "Performing deep search...", none⟩]
  let act := ApiAction.generateContent "gemini-2.5-flash" currentInput true none
  match env.groundedResult with
  | .error e => (.error e, ms1, [act])
  | .ok resp =>
    (.ok (),
     setLast ms1 ⟨.model, resp.text, some (extractCitations resp.groundingChunks)⟩,
     [act])

/-- JavaScript String.prototype.trim: strip leading and trailing whitespace
(modelled over the character list so that it evaluates by computation). -/
def jsTrim (s : String) : String :=
  String.mk (((s.data.dropWhile Char.isWhitespace).reverse.dropWhile
    Char.isWhitespace).reverse)

/-- The dispatch guard of handleSendMessage:
if (!input.trim() && !attachedFile || isLoading || !chat) return. -/
def sendBlocked (s : AppState) : Bool :=
  (jsTrim s.input == "" && s.attachedFile.isNone) || s.isLoading || s.chat.isNone

/-- Text of the appended user entry: the captured input plus the
"[File Attached: name]" annotation when an attachment is pending. -/
def userEntryText (input : String) (file : Option AttachedFile) : String :=
  input ++ (match file with
            | some f => "\n\n[File Attached: " ++ f.name ++ "]"
            | none => "")

/-- The synchronous opening of a send, run before the first await: clear the
input field, append the user entry, raise isLoading, clear the error. -/
def sendPrelude (s : AppState) : AppState :=
  { s with
    input := "",
    messages := s.messages ++ [⟨.user, userEntryText s.input s.attachedFile, none⟩],
    isLoading := true,
    error := none }

/-- The catch and finally blocks of handleSendMessage, applied to the state
after the prelude and the branch result: on a throw, set the error banner
and drop the last transcript entry; in every case lower isLoading and clear
the attachment and the deep-search toggle. -/
def sendSettle (s1 : AppState)
    (r : Except String Unit × List Message × ChatSession × List ApiAction) :
    AppState × List ApiAction :=
  let s2 :=
    match r.1 with
    | .ok _ => { s1 with messages := r.2.1, chat := some r.2.2.1 }
    | .error e =>
      { s1 with
        messages := r.2.1.dropLast,
        error := some ("Error from AI: " ++ e),
        chat := some r.2.2.1 }
  ({ s2 with isLoading := false, attachedFile := none, isDeepSearch := false },
   r.2.2.2)

/-- handleSendMessage from App.tsx: guard, prelude, branch on isDeepSearch,
then the catch block (set the error banner and drop the last transcript
entry) and the finally block (lower isLoading, clear the attachment and the
deep-search toggle), both in sendSettle. -/
def handleSendMessage (env : SendEnv) (s : AppState) :
    AppState × List ApiAction :=
  if sendBlocked s then (s, [])
  else
    match s.chat with
    | none => (s, [])
    | some chat =>
      let s1 := sendPrelude s
      sendSettle s1
        (if s.isDeepSearch then
          let d := handleDeepSearch env s.input s1.messages
          (d.1, d.2.1, chat, d.2.2)
        else handleStandardChat env chat s.attachedFile s.input s1.messages)

/-- Whether the send's branch throws, given the environment: the conversion
or the stream call or the stream iteration on the standard path, the
grounded call on the deep-search path. -/
def sendFails (env : SendEnv) (s : AppState) : Bool :=
  if s.isDeepSearch then
    match env.groundedResult with
    | .error _ => true
    | .ok _ => false
  else
    let streamFails :=
      match env.streamResult with
      | .error _ => true
      | .ok sr => sr.streamThrow.isSome
    match s.attachedFile with
    | some _ =>
      (match env.convertResult with
       | .error _ => true
       | .ok _ => false) || streamFails
    | none => streamFails

/-- Whether the failing throw happens before the provisional model entry is
appended: only on the standard path, when the attachment conversion throws
or the awaited sendMessageStream call itself rejects. -/
def failsBeforeProvisional (env : SendEnv) (s : AppState) : Bool :=
  !s.isDeepSearch &&
    ((match s.attachedFile with
      | some _ =>
        match env.convertResult with
        | .error _ => true
        | .ok _ => false
      | none => false) ||
     (match env.streamResult with
      | .error _ => true
      | .ok _ => false))

/-- The role marker of handleDownloadChat:
msg.role === "user" ? "> User:" : "< AI:". -/
def roleLabel : Role → String
  | .user => "> User:"
  | .model => "< AI:"

/-- One line of the Sources block: (c, i) => "[i+1] title: uri". -/
def citationLine (p : Nat × Citation) : String :=
  "[" ++ toString (p.1 + 1) ++ "] " ++ p.2.title ++ ": " ++ p.2.uri

/-- One exported entry of handleDownloadChat.  The DOM text extraction
(tempDiv.innerHTML / textContent) is an external browser facility; it is
passed in as the strip function. -/
def exportEntry (strip : String → String) (m : Message) : String :=
  let citationsText :=
    match m.citations with
    | some cits =>
      if cits.length > 0 then
        "\n\nSources:\n" ++ String.intercalate "\n" (cits.enum.map citationLine)
      else ""
    | none => ""
  roleLabel m.role ++ "\n" ++ strip m.text ++ citationsText

/-- handleDownloadChat from App.tsx: map each entry and join the results
with the separator. -/
def handleDownloadChat (strip : String → String) (ms : List Message) : String :=
  String.intercalate "\n\n---\n\n" (ms.map (exportEntry strip))

/-- Follows the words of the spec for the export format: citation lines
numbered from 1 by a running counter. -/
def specCitationLines : Nat → List Citation → List String
  | _, [] => []
  | n, c :: cs =>
    ("[" ++ toString n ++ "] " ++ c.title ++ ": " ++ c.uri) ::
      specCitationLines (n + 1) cs

/-- Follows the words of the spec for one exported entry: the role marker,
a newline, the markup-stripped text, and a Sources block exactly when the
citation list is present and non-empty. -/
def specExportEntry (strip : String → String) (m : Message) : String :=
  (match m.role with | .user => "> User:" | .model => "< AI:") ++ "\n" ++
    strip m.text ++
    (match m.citations with
     | some (c :: cs) =>
       "\n\nSources:\n" ++ String.intercalate "\n" (specCitationLines 1 (c :: cs))
     | _ => "")

/-- Follows the words of the spec for the whole export: entries in
transcript order joined by the fixed separator. -/
def specExport (strip : String → String) (ms : List Message) : String :=
  String.intercalate "\n\n---\n\n" (ms.map (specExportEntry strip))

/-- State of the welcome animation closure in animateWelcomeMessage: the
animatedText accumulator, the index i, and the active interval (none once
cleared).  Interval ids are drawn from a counter so that a cleared or
superseded interval is distinguishable from the active one. -/
structure AnimState where
  acc : List Char
  idx : Nat
  timer : Option Nat
deriving DecidableEq

/-- The state of the whole component for the timer-level semantics: the App
state plus the animation closure and the id counter. -/
structure SysState where
  app : AppState
  anim : AnimState
  nextId : Nat
deriving DecidableEq

/-- The synchronous turns of the event loop that the animation claims are
about: the persona-change effect, one firing of an interval, and the
synchronous opening of a send (its guard plus everything before the first
await).  Each turn runs to completion before the next starts
(single-threaded cooperative scheduling). -/
inductive SysEvent
  | switchPersona (k : PersonaKey)
  | tick (id : Nat)
  | sendStart (input : String) (file : Option AttachedFile)
deriving DecidableEq

/-- Whether an event is the opening of a send. -/
def isSendEvent : SysEvent → Bool
  | .sendStart _ _ => true
  | _ => false

/-- animateWelcomeMessage: clear any previous interval, seed the transcript
with a single empty model entry, reset the closure, start a new interval. -/
def animateWelcome (s : SysState) : SysState :=
  { s with
    app := { s.app with messages := [⟨.model, "", none⟩] },
    anim := ⟨[], 0, some s.nextId⟩,
    nextId := s.nextId + 1 }

/-- One synchronous turn.  switchPersona is the [currentModel] effect (the
cleanup clears the old interval, then startChat and animateWelcomeMessage
run).  tick is one firing of interval id; a cleared or superseded interval
never fires, so a tick whose id is not the active one is a no-op.  sendStart
models the user submitting the given input and attachment: it applies the
guard and, when not blocked, the synchronous part of handleSendMessage. -/
def sysStep (s : SysState) : SysEvent → SysState
  | .switchPersona k =>
    animateWelcome
      { s with app := { s.app with chat := some (startChat (AI_MODELS k).instruction) } }
  | .tick id =>
    if s.anim.timer = some id then
      if s.anim.idx < bannerChars.length then
        let acc1 := s.anim.acc ++ [bannerChars.getD s.anim.idx ' ']
        { s with
          app := { s.app with messages := [⟨.model, String.mk (acc1 ++ ['█']), none⟩] },
          anim := ⟨acc1, s.anim.idx + 1, s.anim.timer⟩ }
      else
        { s with
          app := { s.app with messages := [⟨.model, String.mk s.anim.acc, none⟩] },
          anim := { s.anim with timer := none } }
    else s
  | .sendStart inp file =>
    let app1 := { s.app with input := inp, attachedFile := file }
    if sendBlocked app1 then s else { s with app := sendPrelude app1 }

/-- The component state before the mount effect runs (the useState
initial values). -/
def blankSys : SysState :=
  ⟨⟨none, [], "", false, none, false, none⟩, ⟨[], 0, none⟩, 0⟩

/-- The state after mounting: the [currentModel] effect runs once for the
initial persona ecoiuris. -/
def initialSys : SysState := sysStep blankSys (.switchPersona .ecoiuris)

/-- The state reached by a sequence of synchronous turns. -/
def reach (s : SysState) (evts : List SysEvent) : SysState :=
  evts.foldl sysStep s

/-- The tick events of interval id repeated j times. -/
def ticksOf (id : Nat) (j : Nat) : List SysEvent :=
  List.replicate j (.tick id)

theorem setLast_concat (xs : List Message) (m m' : Message) :
    setLast (xs ++ [m]) m' = xs ++ [m'] := by
  rcases xs with _ | ⟨a, t⟩
  · rfl
  · show ((a :: t) ++ [m]).dropLast ++ [m'] = (a :: t) ++ [m']
    rw [List.dropLast_concat]

theorem chunkFold_eq (cs : List String) :
    ∀ (buf : String) (xs : List Message) (m : Message),
      chunkFold buf (xs ++ [m]) cs =
        (cs.foldl (· ++ ·) buf,
         xs ++ [match cs with
                | [] => m
                | _ :: _ => ⟨Role.model, cs.foldl (· ++ ·) buf, none⟩]) := by
  induction cs with
  | nil => intro buf xs m; rfl
  | cons c cs ih =>
    intro buf xs m
    show chunkFold (buf ++ c) (setLast (xs ++ [m]) ⟨Role.model, buf ++ c, none⟩) cs = _
    rw [setLast_concat, ih]
    cases cs with
    | nil => rfl
    | cons d ds => rfl

theorem sendSettle_ok (s1 : AppState) (ms : List Message) (c : ChatSession)
    (acts : List ApiAction) :
    sendSettle s1 (.ok (), ms, c, acts) =
      ({ s1 with messages := ms, chat := some c, isLoading := false,
                 attachedFile := none, isDeepSearch := false }, acts) := rfl

theorem sendSettle_err (s1 : AppState) (e : String) (ms : List Message)
    (c : ChatSession) (acts : List ApiAction) :
    sendSettle s1 (.error e, ms, c, acts) =
      ({ s1 with messages := ms.dropLast,
                 error := some ("Error from AI: " ++ e),
                 chat := some c, isLoading := false, attachedFile := none,
                 isDeepSearch := false }, acts) := rfl

theorem handleSendMessage_eq (env : SendEnv) (s : AppState) (c : ChatSession)
    (hb : sendBlocked s = false) (hc : s.chat = some c) :
    handleSendMessage env s =
      sendSettle (sendPrelude s)
        (if s.isDeepSearch then
          let d := handleDeepSearch env s.input (sendPrelude s).messages
          (d.1, d.2.1, c, d.2.2)
        else
          handleStandardChat env c s.attachedFile s.input (sendPrelude s).messages) := by
  simp only [handleSendMessage, hb, hc]
  rfl

theorem sac_stream_err (env : SendEnv) (chat : ChatSession) (parts : List Part)
    (acts : List ApiAction) (ms : List Message) (e : String)
    (h : env.streamResult = .error e) :
    standardAfterConvert env chat parts acts ms =
      (.error e, ms, chat, acts ++ [.sendMessageStream parts]) := by
  simp only [standardAfterConvert, h]

theorem sac_stream_ok (env : SendEnv) (chat : ChatSession) (parts : List Part)
    (acts : List ApiAction) (ms : List Message) (sr : StreamResult)
    (h : env.streamResult = .ok sr) :
    standardAfterConvert env chat parts acts ms =
      ((match sr.streamThrow with
        | some e => Except.error e
        | none => Except.ok ()),
       ms ++ [match sr.chunks with
              | [] => ⟨Role.model, "...", none⟩
              | _ :: _ => ⟨Role.model, sr.chunks.foldl (· ++ ·) "", none⟩],
       { chat with history := chat.history ++ [⟨parts, sr.chunks.foldl (· ++ ·) ""⟩] },
       acts ++ [.sendMessageStream parts]) := by
  simp only [standardAfterConvert, h, chunkFold_eq]
  rcases sr with ⟨cks, st⟩
  rcases st with _ | e <;> rfl

theorem hsm_deep_err (env : SendEnv) (s : AppState) (c : ChatSession) (e : String)
    (hb : sendBlocked s = false) (hc : s.chat = some c)
    (hd : s.isDeepSearch = true) (hg : env.groundedResult = .error e) :
    handleSendMessage env s =
      ({ s with input := "",
                messages := s.messages ++
                  [⟨.user, userEntryText s.input s.attachedFile, none⟩],
                isLoading := false,
                error := some ("Error from AI: " ++ e),
                chat := some c,
                isDeepSearch := false, attachedFile := none },
       [.generateContent "gemini-2.5-flash" s.input true none]) := by
  rw [handleSendMessage_eq env s c hb hc, hd]
  simp only [if_true, handleDeepSearch, hg, sendPrelude]
  rw [sendSettle_err]
  rw [List.dropLast_concat]

theorem hsm_deep_ok (env : SendEnv) (s : AppState) (c : ChatSession)
    (resp : GroundedResponse)
    (hb : sendBlocked s = false) (hc : s.chat = some c)
    (hd : s.isDeepSearch = true) (hg : env.groundedResult = .ok resp) :
    handleSendMessage env s =
      ({ s with input := "",
                messages := s.messages ++
                  [⟨.user, userEntryText s.input s.attachedFile, none⟩,
                   ⟨.model, resp.text, some (extractCitations resp.groundingChunks)⟩],
                isLoading := false,
                error := none,
                chat := some c,
                isDeepSearch := false, attachedFile := none },
       [.generateContent "gemini-2.5-flash" s.input true none]) := by
  rw [handleSendMessage_eq env s c hb hc, hd]
  simp only [if_true, handleDeepSearch, hg, sendPrelude]
  rw [sendSettle_ok]
  rw [setLast_concat, List.append_assoc]
  rfl

theorem hsm_std_conv_err (env : SendEnv) (s : AppState) (c : ChatSession)
    (f : AttachedFile) (e : String)
    (hb : sendBlocked s = false) (hc : s.chat = some c)
    (hd : s.isDeepSearch = false) (hf : s.attachedFile = some f)
    (hcv : env.convertResult = .error e) :
    handleSendMessage env s =
      ({ s with input := "",
                isLoading := false,
                error := some ("Error from AI: " ++ e),
                chat := some c,
                isDeepSearch := false, attachedFile := none },
       [.convertAttachment f.name]) := by
  rw [handleSendMessage_eq env s c hb hc, hd]
  simp only [Bool.false_eq_true, if_false, handleStandardChat, hf, hcv, sendPrelude]
  rw [sendSettle_err]
  rw [List.dropLast_concat]

theorem hsm_std_stream_err (env : SendEnv) (s : AppState) (c : ChatSession)
    (e : String) (sentParts : List Part) (convActs : List ApiAction)
    (hb : sendBlocked s = false) (hc : s.chat = some c)
    (hd : s.isDeepSearch = false)
    (hstream : env.streamResult = .error e)
    (hparts : (match s.attachedFile with
               | some f =>
                 match env.convertResult with
                 | .ok p => some ([p, Part.text s.input], [ApiAction.convertAttachment f.name])
                 | .error _ => none
               | none => some ([Part.text s.input], ([] : List ApiAction)))
              = some (sentParts, convActs)) :
    handleSendMessage env s =
      ({ s with input := "",
                isLoading := false,
                error := some ("Error from AI: " ++ e),
                chat := some c,
                isDeepSearch := false, attachedFile := none },
       convActs ++ [.sendMessageStream sentParts]) := by
  rw [handleSendMessage_eq env s c hb hc, hd]
  rcases hf : s.attachedFile with _ | f
  · simp only [hf, Option.some.injEq, Prod.mk.injEq] at hparts
    obtain ⟨h1, h2⟩ := hparts
    subst h1; subst h2
    simp only [Bool.false_eq_true, if_false, handleStandardChat, hf]
    rw [sac_stream_err env c _ _ _ e hstream, sendSettle_err]
    simp only [sendPrelude, List.dropLast_concat]
  · rcases hcv : env.convertResult with e2 | p
    · simp only [hf, hcv] at hparts
      exact absurd hparts (by simp)
    · simp only [hf, hcv, Option.some.injEq, Prod.mk.injEq] at hparts
      obtain ⟨h1, h2⟩ := hparts
      subst h1; subst h2
      simp only [Bool.false_eq_true, if_false, handleStandardChat, hf, hcv]
      rw [sac_stream_err env c _ _ _ e hstream, sendSettle_err]
      simp only [sendPrelude, List.dropLast_concat]

theorem hsm_std_stream_ok (env : SendEnv) (s : AppState) (c : ChatSession)
    (sr : StreamResult) (sentParts : List Part) (convActs : List ApiAction)
    (hb : sendBlocked s = false) (hc : s.chat = some c)
    (hd : s.isDeepSearch = false)
    (hstream : env.streamResult = .ok sr)
    (hparts : (match s.attachedFile with
               | some f =>
                 match env.convertResult with
                 | .ok p => some ([p, Part.text s.input], [ApiAction.convertAttachment f.name])
                 | .error _ => none
               | none => some ([Part.text s.input], ([] : List ApiAction)))
              = some (sentParts, convActs)) :
    handleSendMessage env s =
      ((match sr.streamThrow with
        | some e =>
          { s with input := "",
                   messages := s.messages ++
                     [⟨.user, userEntryText s.input s.attachedFile, none⟩],
                   isLoading := false,
                   error := some ("Error from AI: " ++ e),
                   chat := some { c with history :=
                     c.history ++ [⟨sentParts, sr.chunks.foldl (· ++ ·) ""⟩] },
                   isDeepSearch := false, attachedFile := none }
        | none =>
          { s with input := "",
                   messages := s.messages ++
                     [⟨.user, userEntryText s.input s.attachedFile, none⟩,
                      match sr.chunks with
                      | [] => ⟨.model, "...", none⟩
                      | _ :: _ => ⟨.model, sr.chunks.foldl (· ++ ·) "", none⟩],
                   isLoading := false,
                   error := none,
                   chat := some { c with history :=
                     c.history ++ [⟨sentParts, sr.chunks.foldl (· ++ ·) ""⟩] },
                   isDeepSearch := false, attachedFile := none }),
       convActs ++ [.sendMessageStream sentParts]) := by
  rw [handleSendMessage_eq env s c hb hc, hd]
  rcases hf : s.attachedFile with _ | f
  · simp only [hf, Option.some.injEq, Prod.mk.injEq] at hparts
    obtain ⟨h1, h2⟩ := hparts
    subst h1; subst h2
    simp only [Bool.false_eq_true, if_false, handleStandardChat, hf]
    rw [sac_stream_ok env c _ _ _ sr hstream]
    rcases hst : sr.streamThrow with _ | e
    · rw [sendSettle_ok]
      simp only [sendPrelude, hf, List.append_assoc, List.singleton_append]
    · rw [sendSettle_err]
      simp only [sendPrelude, hf, List.dropLast_concat]
  · rcases hcv : env.convertResult with e2 | p
    · simp only [hf, hcv] at hparts
      exact absurd hparts (by simp)
    · simp only [hf, hcv, Option.some.injEq, Prod.mk.injEq] at hparts
      obtain ⟨h1, h2⟩ := hparts
      subst h1; subst h2
      simp only [Bool.false_eq_true, if_false, handleStandardChat, hf, hcv]
      rw [sac_stream_ok env c _ _ _ sr hstream]
      rcases hst : sr.streamThrow with _ | e
      · rw [sendSettle_ok]
        simp only [sendPrelude, hf, List.append_assoc, List.singleton_append]
      · rw [sendSettle_err]
        simp only [sendPrelude, hf, List.dropLast_concat]

theorem take_succ_getD (l : List Char) :
    ∀ (j : Nat) (d : Char), j < l.length → l.take (j + 1) = l.take j ++ [l.getD j d] := by
  induction l with
  | nil => intro j d h; exact absurd h (by simp)
  | cons a t ih =>
    intro j d h
    cases j with
    | zero => rfl
    | succ j =>
      have hj : j < t.length := Nat.lt_of_succ_lt_succ h
      show a :: t.take (j + 1) = a :: (t.take j ++ [t.getD j d])
      rw [ih j d hj]

theorem sysStep_tick_stale (s : SysState) (id : Nat)
    (h : s.anim.timer ≠ some id) : sysStep s (.tick id) = s := by
  simp only [sysStep]
  rw [if_neg h]

theorem reach_ticks_le (s : SysState) (k : PersonaKey) :
    ∀ j, j ≤ bannerChars.length →
      reach (sysStep s (.switchPersona k)) (ticksOf s.nextId j) =
        { app := { s.app with
                     chat := some (startChat (AI_MODELS k).instruction),
                     messages :=
                       if j = 0 then [⟨.model, "", none⟩]
                       else [⟨.model, String.mk (bannerChars.take j ++ ['█']), none⟩] },
          anim := ⟨bannerChars.take j, j, some s.nextId⟩,
          nextId := s.nextId + 1 } := by
  intro j
  induction j with
  | zero => intro _; rfl
  | succ j ih =>
    intro hj
    have hj' : j ≤ bannerChars.length := Nat.le_of_succ_le hj
    have hjlt : j < bannerChars.length := Nat.lt_of_succ_le hj
    have hprev := ih hj'
    rw [reach, ticksOf] at hprev
    rw [ticksOf, List.replicate_succ']
    rw [reach, List.foldl_append, hprev]
    rw [List.foldl_cons, List.foldl_nil]
    simp only [sysStep]
    rw [if_true, if_pos hjlt]
    simp only [← take_succ_getD bannerChars j ' ' hjlt]
    simp [Nat.succ_ne_zero]

theorem reach_ticks_full (s : SysState) (k : PersonaKey) :
    reach (sysStep s (.switchPersona k)) (ticksOf s.nextId (bannerChars.length + 1)) =
      { app := { s.app with
                   chat := some (startChat (AI_MODELS k).instruction),
                   messages := [⟨.model, fullWelcomeMessageText, none⟩] },
        anim := ⟨bannerChars, bannerChars.length, none⟩,
        nextId := s.nextId + 1 } := by
  have hprev := reach_ticks_le s k bannerChars.length (Nat.le_refl _)
  rw [reach, ticksOf] at hprev
  rw [ticksOf, List.replicate_succ']
  rw [reach, List.foldl_append, hprev]
  rw [List.foldl_cons, List.foldl_nil]
  simp only [sysStep]
  rw [if_true, if_neg (Nat.lt_irrefl _)]
  rw [List.take_length]
  rfl

/-- The transcript is a single model entry (no user turn, no pending reply
from a send). -/
def singleModel (ms : List Message) : Prop :=
  ∃ m : Message, m.role = .model ∧ ms = [m]

theorem sysStep_noSend_singleModel (s : SysState) (e : SysEvent)
    (he : isSendEvent e = false) (h : singleModel s.app.messages) :
    singleModel (sysStep s e).app.messages := by
  cases e with
  | switchPersona k => exact ⟨⟨.model, "", none⟩, rfl, rfl⟩
  | tick id =>
    simp only [sysStep]
    by_cases ht : s.anim.timer = some id
    · rw [if_pos ht]
      by_cases hi : s.anim.idx < bannerChars.length
      · rw [if_pos hi]
        exact ⟨_, rfl, rfl⟩
      · rw [if_neg hi]
        exact ⟨_, rfl, rfl⟩
    · rw [if_neg ht]
      exact h
  | sendStart inp file => exact absurd he (by simp [isSendEvent])

theorem reach_noSend_singleModel (evts : List SysEvent) :
    ∀ s : SysState, (∀ e ∈ evts, isSendEvent e = false) →
      singleModel s.app.messages → singleModel (reach s evts).app.messages := by
  induction evts with
  | nil => intro s _ h; exact h
  | cons e rest ih =>
    intro s hall h
    show singleModel (reach (sysStep s e) rest).app.messages
    exact ih (sysStep s e) (fun x hx => hall x (List.mem_cons_of_mem e hx))
      (sysStep_noSend_singleModel s e (hall e (List.mem_cons_self e rest)) h)

theorem enumFrom_citationLine (cits : List Citation) :
    ∀ n : Nat, (List.enumFrom n cits).map citationLine = specCitationLines (n + 1) cits := by
  induction cits with
  | nil => intro n; rfl
  | cons c cs ih =>
    intro n
    show citationLine (n, c) :: (List.enumFrom (n + 1) cs).map citationLine = _
    rw [ih (n + 1)]
    rfl

theorem exportEntry_eq_spec (strip : String → String) (m : Message) :
    exportEntry strip m = specExportEntry strip m := by
  rcases m with ⟨r, t, cits⟩
  rcases cits with _ | cits
  · cases r <;> rfl
  · rcases cits with _ | ⟨c, cs⟩
    · cases r <;> rfl
    · cases r <;>
      · simp only [exportEntry, specExportEntry]
        rw [if_pos (by simp)]
        rw [show (c :: cs).enum = List.enumFrom 0 (c :: cs) from rfl]
        rw [enumFrom_citationLine]
        rfl

/-- Claim C6: for every transcript, the export renders each entry as
"> User:" or "< AI:" followed by a newline and the markup-stripped text,
appends a Sources block with lines "[n] title: uri" numbered from 1 exactly
when the entry has a non-empty citation list, and joins the entries in
transcript order with the separator between blank lines; this holds for
every markup-stripping function the browser may supply. -/
theorem c6_export_format (strip : String → String) (ms : List Message) :
    handleDownloadChat strip ms = specExport strip ms := by
  unfold handleDownloadChat specExport
  have h : exportEntry strip = specExportEntry strip :=
    funext (exportEntry_eq_spec strip)
  rw [h]

/-- Follows the words of the spec: the subsequence of grounding entries
whose uri and title are both present and non-empty, in source order. -/
def specCitations : Option (List GroundingChunk) → List Citation
  | none => []
  | some cs =>
    ((cs.filterMap (·.web)).filter fun w =>
      truthyStr w.uri && truthyStr w.title).map
      fun w => ⟨w.uri.getD "", w.title.getD ""⟩

theorem extractCitations_eq_spec (chunks : Option (List GroundingChunk)) :
    extractCitations chunks = specCitations chunks := by
  rcases chunks with _ | cs
  · rfl
  · simp only [extractCitations, specCitations]
    induction cs with
    | nil => rfl
    | cons c t ih =>
      rcases c with ⟨w⟩
      rcases w with _ | w
      · simpa using ih
      · simp only [List.map_cons, List.filterMap_cons, List.filter_cons]
        by_cases h : (truthyStr w.uri && truthyStr w.title) = true
        · rw [if_pos h, if_pos h, List.map_cons]
          exact congrArg (List.cons _) ih
        · rw [if_neg h, if_neg h]
          exact ih

/-- Claim C4: extractCitations keeps exactly the grounding entries whose uri
and title are both present and non-empty, in source order; and for every
deep-search send that completes, the final model entry stores exactly that
filtered citation list. -/
theorem c4_deep_search_citations :
    (∀ chunks, extractCitations chunks = specCitations chunks) ∧
    ∀ (env : SendEnv) (s : AppState) (c : ChatSession) (resp : GroundedResponse),
      sendBlocked s = false → s.chat = some c → s.isDeepSearch = true →
      env.groundedResult = .ok resp →
      (handleSendMessage env s).1.messages =
        s.messages ++
          [⟨.user, userEntryText s.input s.attachedFile, none⟩,
           ⟨.model, resp.text, some (specCitations resp.groundingChunks)⟩] := by
  refine ⟨extractCitations_eq_spec, ?_⟩
  intro env s c resp hb hc hd hg
  rw [hsm_deep_ok env s c resp hb hc hd hg]
  rw [extractCitations_eq_spec]

/-- A concrete chat session used by the witnesses below. -/
def wChat : ChatSession := startChat "instr"

/-- Concrete grounding chunks exercising every filter case: a complete
entry, an empty uri, a missing title, a missing web payload, and another
complete entry. -/
def wGchunks : List GroundingChunk :=
  [⟨some ⟨some "u1", some "t1"⟩⟩, ⟨some ⟨some "", some "t2"⟩⟩,
   ⟨some ⟨some "u3", none⟩⟩, ⟨none⟩, ⟨some ⟨some "u5", some "t5"⟩⟩]

/-- A concrete grounded response. -/
def wResp : GroundedResponse := ⟨"ans", some wGchunks⟩

/-- Environment for a successful deep-search send. -/
def wEnvDeepOk : SendEnv := ⟨.error "unused", .error "unused", .ok wResp⟩

/-- A concrete state with deep search on and no attachment. -/
def wDeepState : AppState := ⟨some wChat, [], "q", false, none, true, none⟩

/-- A concrete attachment. -/
def wFile : AttachedFile := ⟨"f.pdf", "application/pdf"⟩

/-- A concrete state with deep search on and a pending attachment. -/
def wDeepFileState : AppState := ⟨some wChat, [], "q", false, none, true, some wFile⟩

/-- Witness for C4: the theorem applied to a concrete deep-search send whose
grounding chunks exercise every filter case. -/
theorem c4_deep_search_citations_witness :
    (handleSendMessage wEnvDeepOk wDeepState).1.messages =
      wDeepState.messages ++
        [⟨.user, userEntryText wDeepState.input wDeepState.attachedFile, none⟩,
         ⟨.model, wResp.text, some (specCitations wResp.groundingChunks)⟩] :=
  c4_deep_search_citations.2 wEnvDeepOk wDeepState wChat wResp (by decide) rfl rfl rfl

/-- Claim C8: every dispatched send, successful or failed, ends with the
in-flight flag lowered, the attachment cleared and the deep-search toggle
cleared; the error banner is set exactly when the send failed, and it is
the synchronous opening of a send (the prelude), not the end of the failing
one, that clears it. -/
theorem c8_send_cycle_reset (env : SendEnv) (s : AppState) (c : ChatSession)
    (hb : sendBlocked s = false) (hc : s.chat = some c) :
    (handleSendMessage env s).1.isLoading = false ∧
    (handleSendMessage env s).1.attachedFile = none ∧
    (handleSendMessage env s).1.isDeepSearch = false ∧
    (handleSendMessage env s).1.error.isSome = sendFails env s ∧
    (sendPrelude s).error = none := by
  rcases hd : s.isDeepSearch
  case false =>
    rcases hf : s.attachedFile with _ | f
    · rcases hsr : env.streamResult with e | sr
      · rw [hsm_std_stream_err env s c e [Part.text s.input] [] hb hc hd hsr
          (by rw [hf])]
        simp [sendFails, sendPrelude, hd, hf, hsr]
      · rw [hsm_std_stream_ok env s c sr [Part.text s.input] [] hb hc hd hsr
          (by rw [hf])]
        rcases hst : sr.streamThrow with _ | e
        · simp [sendFails, sendPrelude, hd, hf, hsr, hst]
        · simp [sendFails, sendPrelude, hd, hf, hsr, hst]
    · rcases hcv : env.convertResult with e | p
      · rw [hsm_std_conv_err env s c f e hb hc hd hf hcv]
        simp [sendFails, sendPrelude, hd, hf, hcv]
      · rcases hsr : env.streamResult with e | sr
        · rw [hsm_std_stream_err env s c e [p, Part.text s.input]
            [ApiAction.convertAttachment f.name] hb hc hd hsr (by rw [hf, hcv])]
          simp [sendFails, sendPrelude, hd, hf, hcv, hsr]
        · rw [hsm_std_stream_ok env s c sr [p, Part.text s.input]
            [ApiAction.convertAttachment f.name] hb hc hd hsr (by rw [hf, hcv])]
          rcases hst : sr.streamThrow with _ | e
          · simp [sendFails, sendPrelude, hd, hf, hcv, hsr, hst]
          · simp [sendFails, sendPrelude, hd, hf, hcv, hsr, hst]
  case true =>
    rcases hg : env.groundedResult with e | resp
    · rw [hsm_deep_err env s c e hb hc hd hg]
      simp [sendFails, sendPrelude, hd, hg]
    · rw [hsm_deep_ok env s c resp hb hc hd hg]
      simp [sendFails, sendPrelude, hd, hg]

/-- Witness for C8: the theorem applied to a concrete failed deep-search
send. -/
theorem c8_send_cycle_reset_witness :
    (handleSendMessage ⟨.error "u", .error "u", .error "gerr"⟩ wDeepState).1.isLoading
        = false ∧
    (handleSendMessage ⟨.error "u", .error "u", .error "gerr"⟩ wDeepState).1.attachedFile
        = none ∧
    (handleSendMessage ⟨.error "u", .error "u", .error "gerr"⟩ wDeepState).1.isDeepSearch
        = false ∧
    (handleSendMessage ⟨.error "u", .error "u", .error "gerr"⟩ wDeepState).1.error.isSome
        = sendFails ⟨.error "u", .error "u", .error "gerr"⟩ wDeepState ∧
    (sendPrelude wDeepState).error = none :=
  c8_send_cycle_reset ⟨.error "u", .error "u", .error "gerr"⟩ wDeepState wChat
    (by decide) rfl

/-- Claim C9: for a deep-search send with a pending attachment, the only
request issued is the grounded one carrying only the input text (no
conversion request, no inline data, no system instruction); the user entry
still carries the file annotation; and the attachment is cleared
afterwards as if consumed. -/
theorem c9_deep_search_ignores_attachment (env : SendEnv) (s : AppState)
    (c : ChatSession) (f : AttachedFile)
    (hb : sendBlocked s = false) (hc : s.chat = some c)
    (hd : s.isDeepSearch = true) (hf : s.attachedFile = some f) :
    (handleSendMessage env s).2 =
      [.generateContent "gemini-2.5-flash" s.input true none] ∧
    (handleSendMessage env s).1.attachedFile = none ∧
    ∃ tail, (handleSendMessage env s).1.messages =
      s.messages ++
        ⟨.user, s.input ++ ("\n\n[File Attached: " ++ f.name ++ "]"), none⟩ :: tail := by
  rcases hg : env.groundedResult with e | resp
  · rw [hsm_deep_err env s c e hb hc hd hg]
    refine ⟨rfl, rfl, [], ?_⟩
    simp [userEntryText, hf]
  · rw [hsm_deep_ok env s c resp hb hc hd hg]
    refine ⟨rfl, rfl,
      [⟨.model, resp.text, some (extractCitations resp.groundingChunks)⟩], ?_⟩
    simp [userEntryText, hf]

/-- Witness for C9: the theorem applied to a concrete deep-search send with
an attachment pending. -/
theorem c9_deep_search_ignores_attachment_witness :
    (handleSendMessage wEnvDeepOk wDeepFileState).2 =
      [.generateContent "gemini-2.5-flash" wDeepFileState.input true none] ∧
    (handleSendMessage wEnvDeepOk wDeepFileState).1.attachedFile = none ∧
    ∃ tail, (handleSendMessage wEnvDeepOk wDeepFileState).1.messages =
      wDeepFileState.messages ++
        ⟨.user, wDeepFileState.input ++
          ("\n\n[File Attached: " ++ wFile.name ++ "]"), none⟩ :: tail :=
  c9_deep_search_ignores_attachment wEnvDeepOk wDeepFileState wChat wFile
    (by decide) rfl rfl rfl

/-- Claim C10: a deep-search send bypasses the persona session: it issues
exactly one one-shot grounded request with no system instruction, and the
chat session (the persona's conversational context) is left unchanged, so
later standard-chat turns retain no memory of deep-search turns. -/
theorem c10_deep_search_bypasses_session (env : SendEnv) (s : AppState)
    (c : ChatSession)
    (hb : sendBlocked s = false) (hc : s.chat = some c)
    (hd : s.isDeepSearch = true) :
    (handleSendMessage env s).1.chat = s.chat ∧
    (handleSendMessage env s).2 =
      [.generateContent "gemini-2.5-flash" s.input true none] := by
  rcases hg : env.groundedResult with e | resp
  · rw [hsm_deep_err env s c e hb hc hd hg]
    exact ⟨hc.symm, rfl⟩
  · rw [hsm_deep_ok env s c resp hb hc hd hg]
    exact ⟨hc.symm, rfl⟩

/-- Witness for C10: the theorem applied to a concrete deep-search send. -/
theorem c10_deep_search_bypasses_session_witness :
    (handleSendMessage wEnvDeepOk wDeepState).1.chat = wDeepState.chat ∧
    (handleSendMessage wEnvDeepOk wDeepState).2 =
      [.generateContent "gemini-2.5-flash" wDeepState.input true none] :=
  c10_deep_search_bypasses_session wEnvDeepOk wDeepState wChat (by decide) rfl rfl

theorem chat_of_not_blocked (s : AppState) (hb : sendBlocked s = false) :
    ∃ c, s.chat = some c := by
  rcases hch : s.chat with _ | c
  · exfalso
    simp [sendBlocked, hch] at hb
  · exact ⟨c, rfl⟩

/-- Claim C1 as stated: every failing send (the streaming call, the
grounded call, or the attachment conversion throwing) removes exactly the
one provisional model entry it created, leaving the user entry in the
transcript. -/
def claimC1 : Prop :=
  ∀ (env : SendEnv) (s : AppState),
    sendBlocked s = false → sendFails env s = true →
    (handleSendMessage env s).1.messages =
      s.messages ++ [⟨.user, userEntryText s.input s.attachedFile, none⟩]

/-- Counterexample for C1: on a standard-chat send whose attachment
conversion throws, the throw happens before any provisional entry is
appended, so the catch block's removal of the last entry removes the user
entry itself: the transcript ends empty instead of keeping the user turn. -/
theorem c1_counterexample : ¬ claimC1 := by
  intro h
  have := h ⟨.error "boom", .ok ⟨["a"], none⟩, .ok ⟨"r", none⟩⟩
    ⟨some wChat, [], "hi", false, none, false, some wFile⟩ (by decide) (by decide)
  exact absurd this (by decide)

/-- Claim C1 amended: a failing send always removes the last transcript
entry. When the throw happens after the provisional model entry was
appended (the chunk iteration on the standard path, or the grounded call on
the deep-search path), that is the provisional entry and the user entry
survives; when the throw happens before the provisional entry exists (the
attachment conversion or the awaited streaming call itself throwing), the
user entry itself is removed and the transcript returns to its pre-send
contents. -/
theorem c1_rollback_amended (env : SendEnv) (s : AppState)
    (hb : sendBlocked s = false) (hfail : sendFails env s = true) :
    (handleSendMessage env s).1.messages =
      if failsBeforeProvisional env s then s.messages
      else s.messages ++ [⟨.user, userEntryText s.input s.attachedFile, none⟩] := by
  obtain ⟨c, hc⟩ := chat_of_not_blocked s hb
  rcases hd : s.isDeepSearch
  case false =>
    rcases hf : s.attachedFile with _ | f
    · rcases hsr : env.streamResult with e | sr
      · rw [hsm_std_stream_err env s c e [Part.text s.input] [] hb hc hd hsr
          (by rw [hf])]
        simp [failsBeforeProvisional, hd, hf, hsr]
      · rw [hsm_std_stream_ok env s c sr [Part.text s.input] [] hb hc hd hsr
          (by rw [hf])]
        rcases hst : sr.streamThrow with _ | e
        · exfalso
          simp [sendFails, hd, hf, hsr, hst] at hfail
        · simp [failsBeforeProvisional, hd, hf, hsr, hst]
    · rcases hcv : env.convertResult with e | p
      · rw [hsm_std_conv_err env s c f e hb hc hd hf hcv]
        simp [failsBeforeProvisional, hd, hf, hcv]
      · rcases hsr : env.streamResult with e | sr
        · rw [hsm_std_stream_err env s c e [p, Part.text s.input]
            [ApiAction.convertAttachment f.name] hb hc hd hsr (by rw [hf, hcv])]
          simp [failsBeforeProvisional, hd, hf, hcv, hsr]
        · rw [hsm_std_stream_ok env s c sr [p, Part.text s.input]
            [ApiAction.convertAttachment f.name] hb hc hd hsr (by rw [hf, hcv])]
          rcases hst : sr.streamThrow with _ | e
          · exfalso
            simp [sendFails, hd, hf, hcv, hsr, hst] at hfail
          · simp [failsBeforeProvisional, hd, hf, hcv, hsr, hst]
  case true =>
    rcases hg : env.groundedResult with e | resp
    · rw [hsm_deep_err env s c e hb hc hd hg]
      simp [failsBeforeProvisional, hd]
    · exfalso
      simp [sendFails, hd, hg] at hfail

/-- Witness for the amended C1: a concrete failing deep-search send keeps
the user entry, matching the else branch of the amended statement. -/
theorem c1_rollback_amended_witness :
    (handleSendMessage ⟨.error "u", .error "u", .error "gerr"⟩ wDeepState).1.messages =
      if failsBeforeProvisional ⟨.error "u", .error "u", .error "gerr"⟩ wDeepState
      then wDeepState.messages
      else wDeepState.messages ++
        [⟨.user, userEntryText wDeepState.input wDeepState.attachedFile, none⟩] :=
  c1_rollback_amended ⟨.error "u", .error "u", .error "gerr"⟩ wDeepState
    (by decide) (by decide)

/-- Claim C3 as stated: for every successful standard-chat send, every
chunk update replaces the last transcript entry with the cumulative buffer
in arrival order, and the final model entry's text equals the concatenation
of all streamed chunk texts. -/
def claimC3 : Prop :=
  ∀ (env : SendEnv) (s : AppState) (sr : StreamResult),
    sendBlocked s = false → s.isDeepSearch = false →
    sendFails env s = false → env.streamResult = .ok sr →
    ((handleSendMessage env s).1.messages =
      s.messages ++ [⟨.user, userEntryText s.input s.attachedFile, none⟩,
                     ⟨.model, sr.chunks.foldl (· ++ ·) "", none⟩]) ∧
    ∀ k, 1 ≤ k → k ≤ sr.chunks.length →
      chunkStates ((sendPrelude s).messages ++ [⟨.model, "...", none⟩]) sr.chunks k =
        (sendPrelude s).messages ++
          [⟨.model, (sr.chunks.take k).foldl (· ++ ·) "", none⟩]

/-- Counterexample for C3: a successful stream that yields zero chunks
leaves the provisional placeholder "..." as the final model entry, which is
not the empty concatenation of chunk texts. -/
theorem c3_counterexample : ¬ claimC3 := by
  intro h
  have := (h ⟨.ok (.text "x"), .ok ⟨[], none⟩, .ok ⟨"r", none⟩⟩
    ⟨some wChat, [], "hi", false, none, false, none⟩ ⟨[], none⟩
    (by decide) rfl (by decide) rfl).1
  exact absurd this (by decide)

/-- Claim C3 amended: for every successful standard-chat send receiving at
least one chunk, each chunk update replaces the last transcript entry with
the cumulative buffer in arrival order (after k chunks the last entry holds
the concatenation of the first k chunk texts), and the final model entry's
text equals the concatenation of all streamed chunk texts in arrival order;
a zero-chunk stream instead leaves the "..." placeholder. -/
theorem c3_stream_accumulation (env : SendEnv) (s : AppState) (sr : StreamResult)
    (hb : sendBlocked s = false) (hd : s.isDeepSearch = false)
    (hok : sendFails env s = false) (hsr : env.streamResult = .ok sr)
    (hne : 1 ≤ sr.chunks.length) :
    ((handleSendMessage env s).1.messages =
      s.messages ++ [⟨.user, userEntryText s.input s.attachedFile, none⟩,
                     ⟨.model, sr.chunks.foldl (· ++ ·) "", none⟩]) ∧
    ∀ k, 1 ≤ k → k ≤ sr.chunks.length →
      chunkStates ((sendPrelude s).messages ++ [⟨.model, "...", none⟩]) sr.chunks k =
        (sendPrelude s).messages ++
          [⟨.model, (sr.chunks.take k).foldl (· ++ ·) "", none⟩] := by
  obtain ⟨c, hc⟩ := chat_of_not_blocked s hb
  constructor
  · rcases hst : sr.streamThrow with _ | e
    case some =>
      exfalso
      rcases hf : s.attachedFile with _ | f
      · simp [sendFails, hd, hf, hsr, hst] at hok
      · rcases hcv : env.convertResult with e2 | p
        · simp [sendFails, hd, hf, hsr, hst, hcv] at hok
        · simp [sendFails, hd, hf, hsr, hst, hcv] at hok
    case none =>
      rcases hcks : sr.chunks with _ | ⟨a, t⟩
      · exfalso
        rw [hcks] at hne
        exact absurd hne (by simp)
      · rcases hf : s.attachedFile with _ | f
        · rw [hsm_std_stream_ok env s c sr [Part.text s.input] [] hb hc hd hsr
            (by rw [hf])]
          simp [hst, hcks, hf]
        · rcases hcv : env.convertResult with e2 | p
          · exfalso
            simp [sendFails, hd, hf, hsr, hcv] at hok
          · rw [hsm_std_stream_ok env s c sr [p, Part.text s.input]
              [ApiAction.convertAttachment f.name] hb hc hd hsr (by rw [hf, hcv])]
            simp [hst, hcks, hf]
  · intro k hk1 hk2
    rw [chunkStates, chunkFold_eq]
    rcases htk : sr.chunks.take k with _ | ⟨a, t⟩
    · exfalso
      rcases (List.take_eq_nil_iff.mp htk) with h0 | h0
      · rw [h0] at hk1; exact absurd hk1 (by simp)
      · rw [h0] at hne; exact absurd hne (by simp)
    · rfl

/-- Witness for the amended C3: a concrete two-chunk stream accumulates to
the concatenation, and the state after the first chunk holds the first
chunk text. -/
theorem c3_stream_accumulation_witness :
    ((handleSendMessage ⟨.error "u", .ok ⟨["Force ", "majeure is..."], none⟩, .error "u"⟩
        ⟨some wChat, [], "What is force majeure?", false, none, false, none⟩).1.messages =
      [] ++ [⟨.user, userEntryText "What is force majeure?" none, none⟩,
             ⟨.model, (["Force ", "majeure is..."].foldl (· ++ ·) ""), none⟩]) ∧
    chunkStates
        ((sendPrelude ⟨some wChat, [], "What is force majeure?", false, none, false, none⟩).messages
          ++ [⟨.model, "...", none⟩]) ["Force ", "majeure is..."] 1 =
      (sendPrelude ⟨some wChat, [], "What is force majeure?", false, none, false, none⟩).messages
        ++ [⟨.model, (["Force ", "majeure is..."].take 1).foldl (· ++ ·) "", none⟩] := by
  have h := c3_stream_accumulation
    ⟨.error "u", .ok ⟨["Force ", "majeure is..."], none⟩, .error "u"⟩
    ⟨some wChat, [], "What is force majeure?", false, none, false, none⟩
    ⟨["Force ", "majeure is..."], none⟩ (by decide) rfl (by decide) rfl (by decide)
  exact ⟨h.1, h.2 1 (by decide) (by decide)⟩

/-- Claim C7 as stated: a send attempt is a no-op whenever the input is
empty with no attachment, a send is in flight, or no session exists; and a
send proceeds whenever the raw input text is non-empty or an attachment is
present - including whitespace-only input with no attachment. -/
def claimC7 : Prop :=
  (∀ (env : SendEnv) (s : AppState),
     sendBlocked s = true → handleSendMessage env s = (s, [])) ∧
  (∀ (env : SendEnv) (s : AppState),
     (s.input ≠ "" ∨ s.attachedFile.isSome = true) →
     s.isLoading = false → s.chat.isSome = true →
     handleSendMessage env s ≠ (s, []))

/-- Counterexample for C7: whitespace-only input with no attachment is
non-empty text, yet the guard trims it to empty and silently ignores the
submission: the send is a no-op. -/
theorem c7_counterexample : ¬ claimC7 := by
  intro h
  have := h.2 wEnvDeepOk ⟨some wChat, [], " ", false, none, false, none⟩
    (Or.inl (by decide)) rfl rfl
  exact this (by decide)

/-- Claim C7 amended: a send attempt is a no-op (unchanged state, no
request) exactly when the guard blocks it, and the guard blocks exactly
when the TRIMMED input is empty with no attachment present, or a send is in
flight, or no session exists; every unblocked send issues at least one
external request. -/
theorem c7_send_guard (env : SendEnv) (s : AppState) :
    (sendBlocked s = true → handleSendMessage env s = (s, [])) ∧
    (sendBlocked s = false → (handleSendMessage env s).2 ≠ []) ∧
    (sendBlocked s = false ↔
      ((jsTrim s.input ≠ "" ∨ s.attachedFile.isSome = true) ∧
       s.isLoading = false ∧ s.chat.isSome = true)) := by
  refine ⟨?_, ?_, ?_⟩
  · intro h
    simp [handleSendMessage, h]
  · intro hb
    obtain ⟨c, hc⟩ := chat_of_not_blocked s hb
    rcases hd : s.isDeepSearch
    case false =>
      rcases hf : s.attachedFile with _ | f
      · rcases hsr : env.streamResult with e | sr
        · rw [hsm_std_stream_err env s c e [Part.text s.input] [] hb hc hd hsr
            (by rw [hf])]
          simp
        · rw [hsm_std_stream_ok env s c sr [Part.text s.input] [] hb hc hd hsr
            (by rw [hf])]
          rcases hst : sr.streamThrow with _ | e <;> simp [hst]
      · rcases hcv : env.convertResult with e | p
        · rw [hsm_std_conv_err env s c f e hb hc hd hf hcv]
          simp
        · rcases hsr : env.streamResult with e | sr
          · rw [hsm_std_stream_err env s c e [p, Part.text s.input]
              [ApiAction.convertAttachment f.name] hb hc hd hsr (by rw [hf, hcv])]
            simp
          · rw [hsm_std_stream_ok env s c sr [p, Part.text s.input]
              [ApiAction.convertAttachment f.name] hb hc hd hsr (by rw [hf, hcv])]
            rcases hst : sr.streamThrow with _ | e <;> simp [hst]
    case true =>
      rcases hg : env.groundedResult with e | resp
      · rw [hsm_deep_err env s c e hb hc hd hg]
        simp
      · rw [hsm_deep_ok env s c resp hb hc hd hg]
        simp
  · by_cases hA : jsTrim s.input = "" <;>
    rcases hB : s.attachedFile with _ | f <;>
    rcases hC : s.isLoading <;>
    rcases hD : s.chat with _ | c <;>
    simp [sendBlocked, hA, hB, hC, hD]

/-- A concrete whitespace-only state: blocked by the guard. -/
def wBlockedState : AppState := ⟨some wChat, [], " ", false, none, false, none⟩

/-- Witness for the amended C7: the no-op branch at a whitespace-only
input, and the dispatch branch at a concrete deep-search send. -/
theorem c7_send_guard_witness :
    handleSendMessage wEnvDeepOk wBlockedState = (wBlockedState, []) ∧
    (handleSendMessage wEnvDeepOk wDeepState).2 ≠ [] :=
  ⟨(c7_send_guard wEnvDeepOk wBlockedState).1 (by decide),
   (c7_send_guard wEnvDeepOk wDeepState).2.1 (by decide)⟩

/-- Claim C2 as stated: while the welcome animation of the active persona
is still running (its interval is live), the transcript contains no user
turn and any attempted send leaves the state unchanged, so no animation
frame can ever overwrite a transcript holding a user turn or an in-flight
reply. -/
def claimC2 : Prop :=
  ∀ evts : List SysEvent,
    (reach initialSys evts).anim.timer.isSome = true →
    (((reach initialSys evts).app.messages.all fun m => m.role == Role.model) = true) ∧
    ∀ (inp : String) (file : Option AttachedFile),
      sysStep (reach initialSys evts) (.sendStart inp file) = reach initialSys evts

/-- Counterexample for C2: in the freshly mounted state the welcome
animation is still running, yet a send dispatches (the guard checks only
isLoading and the session, not the animation) and changes the state by
appending a user turn; the animation does overlap a real chat
interaction. -/
theorem c2_counterexample : ¬ claimC2 := by
  intro h
  have := (h [] (by decide)).2 "hi" none
  exact absurd this (by decide)

/-- Claim C2 amended: sends are not blocked while the welcome animation
runs (refuted by the counterexample), and an animation frame rewrites the
entire transcript; what does hold is that in every run in which no send is
dispatched, each reachable transcript is a single model entry, so no
animation frame ever overwrites a user turn or an in-flight reply. -/
theorem c2_animation_no_overlap_amended (evts : List SysEvent)
    (hns : ∀ e ∈ evts, isSendEvent e = false) :
    singleModel (reach initialSys evts).app.messages :=
  reach_noSend_singleModel evts initialSys hns ⟨⟨.model, "", none⟩, rfl, rfl⟩

/-- Witness for the amended C2: a send-free run (one animation tick, then a
persona switch) keeps the transcript a single model entry. -/
theorem c2_animation_no_overlap_amended_witness :
    singleModel (reach initialSys [.tick 0, .switchPersona .legal_pro]).app.messages :=
  c2_animation_no_overlap_amended [.tick 0, .switchPersona .legal_pro] (by decide)

/-- Claim C5 as stated: after any persona switch, running the animation to
completion leaves exactly the banner verbatim; every intermediate cursor
frame shows a PROPER prefix of the banner followed by the cursor glyph; and
a tick of any interval other than the active one never mutates the
state. -/
def claimC5 : Prop :=
  ∀ (s : SysState) (k : PersonaKey),
    ((reach (sysStep s (.switchPersona k))
        (ticksOf s.nextId (bannerChars.length + 1))).app.messages
      = [⟨.model, fullWelcomeMessageText, none⟩]) ∧
    (∀ j, 1 ≤ j → j ≤ bannerChars.length →
      ∃ p q : List Char, p ++ q = bannerChars ∧ q ≠ [] ∧
        (reach (sysStep s (.switchPersona k)) (ticksOf s.nextId j)).app.messages =
          [⟨.model, String.mk (p ++ ['█']), none⟩]) ∧
    (∀ (u : SysState) (id : Nat), u.anim.timer ≠ some id →
      sysStep u (.tick id) = u)

/-- Counterexample for C5: the last cursor frame (after as many ticks as
the banner has characters) shows the FULL banner followed by the cursor;
the full banner is not a proper prefix of itself, so the proper-prefix
clause of the claim fails at that frame. -/
theorem c5_counterexample : ¬ claimC5 := by
  intro h
  obtain ⟨p, q, hpq, hqne, heq⟩ :=
    (h blankSys .ecoiuris).2.1 bannerChars.length (by decide) (Nat.le_refl _)
  rw [reach_ticks_le blankSys .ecoiuris bannerChars.length (Nat.le_refl _)] at heq
  simp only [List.take_length] at heq
  rw [if_neg (by decide : ¬ (bannerChars.length = 0))] at heq
  simp only [List.cons.injEq, Message.mk.injEq, and_true, true_and] at heq
  have hdata : bannerChars ++ ['█'] = p ++ ['█'] := congrArg String.data heq
  have hbp : bannerChars = p := List.append_cancel_right hdata
  rw [← hbp] at hpq
  have hlen := congrArg List.length hpq
  rw [List.length_append] at hlen
  have hq0 : q.length = 0 := by omega
  exact hqne (List.eq_nil_of_length_eq_zero hq0)

/-- Claim C5 amended: after any persona switch the animation, run to
completion, leaves a single model entry equal to the banner verbatim and
stops its interval; after j ticks (1 <= j <= banner length) the transcript
is a single model entry showing the j-character prefix of the banner
followed by the cursor glyph - a prefix that is proper for every frame
except the last cursor frame, which shows the full banner with the cursor;
and a tick of any interval other than the active one (in particular any
timer of a prior persona, which the switch cleared) leaves the state
unchanged. -/
theorem c5_welcome_animation_amended (s : SysState) (k : PersonaKey) :
    ((reach (sysStep s (.switchPersona k))
        (ticksOf s.nextId (bannerChars.length + 1))).app.messages
      = [⟨.model, fullWelcomeMessageText, none⟩]) ∧
    ((reach (sysStep s (.switchPersona k))
        (ticksOf s.nextId (bannerChars.length + 1))).anim.timer = none) ∧
    (∀ j, 1 ≤ j → j ≤ bannerChars.length →
      ((reach (sysStep s (.switchPersona k)) (ticksOf s.nextId j)).app.messages =
        [⟨.model, String.mk (bannerChars.take j ++ ['█']), none⟩]) ∧
      bannerChars.take j ++ bannerChars.drop j = bannerChars ∧
      (j < bannerChars.length → bannerChars.take j ≠ bannerChars)) ∧
    (∀ (u : SysState) (id : Nat), u.anim.timer ≠ some id →
      sysStep u (.tick id) = u) := by
  refine ⟨?_, ?_, ?_, sysStep_tick_stale⟩
  · simp only [reach_ticks_full]
  · simp only [reach_ticks_full]
  · intro j h1 hj
    refine ⟨?_, List.take_append_drop j bannerChars, ?_⟩
    · simp only [reach_ticks_le s k j hj]
      rw [if_neg (by omega : ¬ j = 0)]
    · intro hlt hcontra
      have hlen := congrArg List.length hcontra
      rw [List.length_take, min_eq_left (Nat.le_of_lt hlt)] at hlen
      exact absurd hlen (Nat.ne_of_lt hlt)

/-- Witness for the amended C5: from the mount state, the completed
animation shows the banner verbatim, and the first cursor frame shows the
one-character prefix of the banner with the cursor. -/
theorem c5_welcome_animation_amended_witness :
    ((reach (sysStep blankSys (.switchPersona .ecoiuris))
        (ticksOf blankSys.nextId (bannerChars.length + 1))).app.messages
      = [⟨.model, fullWelcomeMessageText, none⟩]) ∧
    (reach (sysStep blankSys (.switchPersona .ecoiuris))
        (ticksOf blankSys.nextId 1)).app.messages =
      [⟨.model, String.mk (bannerChars.take 1 ++ ['█']), none⟩] :=
  ⟨(c5_welcome_animation_amended blankSys .ecoiuris).1,
   ((c5_welcome_animation_amended blankSys .ecoiuris).2.2.1 1 (by decide)
     (by decide)).1⟩

end EcoIuris
